import Mathlib

/-
  Shallow embedding of src/server.js (multi-tenant game backend on SQLite).

  The SQLite tables are modelled as lists of rows inside a `DB` record; each
  Express route handler becomes a pure function `DB → args → DB × Except
  ApiError Unit`, returning the post-state together with the response outcome
  (every error branch of a handler leaves the database untouched, which the
  pair makes explicit).  `requireAuth` resolves the caller to a player row;
  handlers that read `req.player` fields perform the same resolution by player
  id (`findPlayerById`), while token-level authentication (`requireAuth`
  itself) is modelled by `requireAuthCheck`.  UUID generation and bcrypt are
  external: fresh ids/tokens are passed as arguments and the credential check
  is a function parameter, exactly as the spec treats the Credential Verifier.
-/

namespace GameBackend

/-- Error responses of the route handlers, one constructor per distinct
(status, message) pair that the source emits. -/
inductive ApiError where
  | missingField
  | invalidAmount
  | notEnoughCredits
  | cannotAddSelf
  | missingToken
  | invalidToken
  | invalidCredentials
  | bannedAccount
  | notAuthorized
  | cosmeticNotFound
  | itemNotFound
  | playerNotFound
  | usernameTaken
  | alreadyOwned
  deriving Repr, DecidableEq

/-- HTTP status code each error is sent with in src/server.js. -/
def ApiError.status : ApiError → Nat
  | .missingField => 400
  | .invalidAmount => 400
  | .notEnoughCredits => 400
  | .cannotAddSelf => 400
  | .missingToken => 401
  | .invalidToken => 401
  | .invalidCredentials => 401
  | .bannedAccount => 403
  | .notAuthorized => 403
  | .cosmeticNotFound => 404
  | .itemNotFound => 404
  | .playerNotFound => 404
  | .usernameTaken => 409
  | .alreadyOwned => 409

/-- A row of the `players` table. -/
structure Player where
  id : String
  game_id : String
  username : String
  password_hash : String
  token : Option String
  credits : Int
  banned : Bool
  deriving Repr, DecidableEq

/-- A row of the `inventory` table. -/
structure InventoryRow where
  player_id : String
  item_name : String
  quantity : Int
  metadata : Option String
  deriving Repr, DecidableEq

/-- A row of the `cosmetics_catalog` table (fields the handlers read). -/
structure Cosmetic where
  id : String
  game_id : String
  name : String
  price : Int
  deriving Repr, DecidableEq

/-- A row of the `player_cosmetics` table. -/
structure OwnershipRow where
  player_id : String
  cosmetic_id : String
  equipped : Bool
  deriving Repr, DecidableEq

/-- A row of the `friend_relationships` table. -/
structure FriendRow where
  player_id : String
  friend_id : String
  status : String
  deriving Repr, DecidableEq

/-- The database state: one list of rows per table used by the claims. -/
structure DB where
  players : List Player
  inventory : List InventoryRow
  catalog : List Cosmetic
  player_cosmetics : List OwnershipRow
  friends : List FriendRow
  deriving Repr, DecidableEq

/-- SELECT * FROM players WHERE id = ? (first matching row). -/
def findPlayerById : List Player → String → Option Player
  | [], _ => none
  | p :: ps, pid => if p.id = pid then some p else findPlayerById ps pid

/-- SELECT * FROM players WHERE game_id = ? AND username = ? (first match). -/
def findByGameUser : List Player → String → String → Option Player
  | [], _, _ => none
  | p :: ps, gid, uname =>
      if p.game_id = gid ∧ p.username = uname then some p
      else findByGameUser ps gid uname

/-- SELECT * FROM players WHERE token = ? (helper `getPlayer` in the source). -/
def getPlayerByToken : List Player → String → Option Player
  | [], _ => none
  | p :: ps, t => if p.token = some t then some p else getPlayerByToken ps t

/-- UPDATE players SET ... WHERE id = ?: rewrite every row whose id matches. -/
def updateById : List Player → String → (Player → Player) → List Player
  | [], _, _ => []
  | p :: ps, pid, f => (if p.id = pid then f p else p) :: updateById ps pid f

/-- The `requireAuth` middleware: missing token, unknown token, banned. -/
def requireAuthCheck (s : DB) (t : String) : Except ApiError Player :=
  if t = "" then .error .missingToken
  else
    match getPlayerByToken s.players t with
    | none => .error .invalidToken
    | some p => if p.banned then .error .bannedAccount else .ok p

/-- POST /register: a fresh uuid id and token are arguments; the INSERT fails
(and is caught as a 409) exactly when the new primary key or the
UNIQUE(game_id, username) constraint collides. -/
def register (s : DB) (gid uname pw hashv newId newTok : String) :
    DB × Except ApiError Unit :=
  if gid = "" ∨ uname = "" ∨ pw = "" then (s, .error .missingField)
  else if s.players.any
      (fun p => p.id == newId || (p.game_id == gid && p.username == uname)) then
    (s, .error .usernameTaken)
  else
    ({ s with players :=
        s.players ++ [⟨newId, gid, uname, hashv, some newTok, 0, false⟩] },
     .ok ())

/-- POST /login: `verify` stands for `bcrypt.compareSync`, `newTok` for the
fresh uuid; on success the player's token column is overwritten. -/
def login (s : DB) (gid uname pw : String) (verify : String → String → Bool)
    (newTok : String) : DB × Except ApiError Unit :=
  if gid = "" ∨ uname = "" ∨ pw = "" then (s, .error .missingField)
  else
    match findByGameUser s.players gid uname with
    | none => (s, .error .invalidCredentials)
    | some p =>
      if verify pw p.password_hash = false then (s, .error .invalidCredentials)
      else if p.banned then (s, .error .bannedAccount)
      else
        ({ s with players :=
            updateById s.players p.id fun q => { q with token := some newTok } },
         .ok ())

/-- POST /credits/spend for the authenticated player `pid`; mirrors the
`!amount || amount <= 0` guard and the balance-sufficiency check on the
resolved player row. -/
def creditsSpend (s : DB) (pid : String) (amount : Int) :
    DB × Except ApiError Unit :=
  match findPlayerById s.players pid with
  | none => (s, .error .invalidToken)
  | some p =>
    if p.banned then (s, .error .bannedAccount)
    else if amount ≤ 0 then (s, .error .invalidAmount)
    else if p.credits < amount then (s, .error .notEnoughCredits)
    else
      ({ s with players :=
          updateById s.players pid fun q => { q with credits := q.credits - amount } },
       .ok ())

/-- POST /credits/add for the authenticated player `pid`. -/
def creditsAdd (s : DB) (pid : String) (amount : Int) :
    DB × Except ApiError Unit :=
  match findPlayerById s.players pid with
  | none => (s, .error .invalidToken)
  | some p =>
    if p.banned then (s, .error .bannedAccount)
    else if amount ≤ 0 then (s, .error .invalidAmount)
    else
      ({ s with players :=
          updateById s.players pid fun q => { q with credits := q.credits + amount } },
       .ok ())

/-- SELECT * FROM cosmetics_catalog WHERE id = ? (no game scoping, as in the
source). -/
def findCosmetic : List Cosmetic → String → Option Cosmetic
  | [], _ => none
  | c :: cs, cid => if c.id = cid then some c else findCosmetic cs cid

/-- SELECT 1 FROM player_cosmetics WHERE player_id = ? AND cosmetic_id = ?. -/
def ownsCosmetic : List OwnershipRow → String → String → Bool
  | [], _, _ => false
  | r :: rs, pid, cid =>
      if r.player_id = pid ∧ r.cosmetic_id = cid then true
      else ownsCosmetic rs pid cid

/-- POST /cosmetics/buy: catalog lookup, duplicate-ownership check, funds
check, then debit plus ownership insert in one handler. -/
def cosmeticsBuy (s : DB) (pid cid : String) : DB × Except ApiError Unit :=
  match findPlayerById s.players pid with
  | none => (s, .error .invalidToken)
  | some p =>
    if p.banned then (s, .error .bannedAccount)
    else if cid = "" then (s, .error .missingField)
    else
      match findCosmetic s.catalog cid with
      | none => (s, .error .cosmeticNotFound)
      | some c =>
        if ownsCosmetic s.player_cosmetics pid cid then (s, .error .alreadyOwned)
        else if p.credits < c.price then (s, .error .notEnoughCredits)
        else
          ({ s with
              players :=
                updateById s.players pid fun q => { q with credits := q.credits - c.price },
              player_cosmetics := s.player_cosmetics ++ [⟨pid, cid, false⟩] },
           .ok ())

/-- SELECT * FROM inventory WHERE player_id = ? AND item_name = ?. -/
def lookupInv : List InventoryRow → String → String → Option InventoryRow
  | [], _, _ => none
  | r :: rs, pid, item =>
      if r.player_id = pid ∧ r.item_name = item then some r
      else lookupInv rs pid item

/-- UPDATE of the inventory rows matching (player_id, item_name). -/
def updateInv : List InventoryRow → String → String →
    (InventoryRow → InventoryRow) → List InventoryRow
  | [], _, _, _ => []
  | r :: rs, pid, item, f =>
      (if r.player_id = pid ∧ r.item_name = item then f r else r) ::
        updateInv rs pid item f

/-- DELETE FROM inventory WHERE player_id = ? AND item_name = ?. -/
def deleteInv (l : List InventoryRow) (pid item : String) : List InventoryRow :=
  l.filter fun r => !(r.player_id == pid && r.item_name == item)

/-- The inventory rows stored for (player, item): what a SELECT returns. -/
def rowsFor (l : List InventoryRow) (pid item : String) : List InventoryRow :=
  l.filter fun r => r.player_id == pid && r.item_name == item

/-- POST /inventory/add: INSERT .. ON CONFLICT(player_id, item_name) DO UPDATE
SET quantity = quantity + excluded.quantity.  The metadata column is not part
of the conflict update, so an existing row keeps its metadata; the quantity
argument is not validated anywhere in the handler. -/
def inventoryAdd (s : DB) (pid item : String) (qty : Int) (md : Option String) :
    DB × Except ApiError Unit :=
  if item = "" then (s, .error .missingField)
  else
    match lookupInv s.inventory pid item with
    | some _ =>
        ({ s with inventory :=
            updateInv s.inventory pid item fun r => { r with quantity := r.quantity + qty } },
         .ok ())
    | none =>
        ({ s with inventory := s.inventory ++ [⟨pid, item, qty, md⟩] }, .ok ())

/-- POST /inventory/remove: 404 when no row; delete the row when the stored
quantity is ≤ the removed quantity, otherwise decrement. -/
def inventoryRemove (s : DB) (pid item : String) (qty : Int) :
    DB × Except ApiError Unit :=
  if item = "" then (s, .error .missingField)
  else
    match lookupInv s.inventory pid item with
    | none => (s, .error .itemNotFound)
    | some r =>
      if r.quantity ≤ qty then
        ({ s with inventory := deleteInv s.inventory pid item }, .ok ())
      else
        ({ s with inventory :=
            updateInv s.inventory pid item fun x => { x with quantity := x.quantity - qty } },
         .ok ())

/-- POST /owner/credits/set: the body check only rejects a missing player_id
or an `undefined` amount; the amount value itself is written unchecked. -/
def ownerCreditsSet (s : DB) (pid : String) (amount : Int) :
    DB × Except ApiError Unit :=
  if pid = "" then (s, .error .missingField)
  else if (findPlayerById s.players pid).isNone then (s, .error .playerNotFound)
  else
    ({ s with players := updateById s.players pid fun p => { p with credits := amount } },
     .ok ())

/-- POST /owner/credits/give: `!amount` only rejects a zero amount, so a
negative amount passes the guard and is added to the balance. -/
def ownerCreditsGive (s : DB) (pid : String) (amount : Int) :
    DB × Except ApiError Unit :=
  if pid = "" ∨ amount = 0 then (s, .error .missingField)
  else if (findPlayerById s.players pid).isNone then (s, .error .playerNotFound)
  else
    ({ s with players :=
        updateById s.players pid fun p => { p with credits := p.credits + amount } },
     .ok ())

/-- POST /owner/bulk/credits: the same unchecked increment applied to every id
of the batch inside one transaction. -/
def ownerBulkCredits (s : DB) (pids : List String) (amount : Int) :
    DB × Except ApiError Unit :=
  if pids = [] ∨ amount = 0 then (s, .error .missingField)
  else
    (pids.foldl
      (fun st pid =>
        { st with players :=
            updateById st.players pid fun p => { p with credits := p.credits + amount } })
      s,
     .ok ())

/-- Rewrite of the rows promoted by POST /friends/accept: UPDATE
friend_relationships SET status = 'accepted' WHERE player_id = ? (the accepted
friend) AND friend_id = ? (the acceptor). -/
def promoteEdge : List FriendRow → String → String → List FriendRow
  | [], _, _ => []
  | fr :: rs, a, b =>
      (if fr.player_id = a ∧ fr.friend_id = b then { fr with status := "accepted" }
       else fr) :: promoteEdge rs a b

/-- Does a (player_id, friend_id) edge exist, any status (the primary key the
INSERT OR IGNORE checks)? -/
def hasEdge : List FriendRow → String → String → Bool
  | [], _, _ => false
  | fr :: rs, a, b =>
      if fr.player_id = a ∧ fr.friend_id = b then true else hasEdge rs a b

/-- The friend rows stored from a to b. -/
def edgesFromTo (l : List FriendRow) (a b : String) : List FriendRow :=
  l.filter fun fr => fr.player_id == a && fr.friend_id == b

/-- POST /friends/accept for authenticated player `pid`: promote the reverse
edge (fid → pid) to accepted, then INSERT OR IGNORE a forward (pid → fid)
edge directly in the accepted state.  Neither statement checks that a pending
request ever existed. -/
def friendsAccept (s : DB) (pid fid : String) : DB × Except ApiError Unit :=
  if fid = "" then (s, .error .missingField)
  else
    ({ s with friends :=
        if hasEdge (promoteEdge s.friends fid pid) pid fid then
          promoteEdge s.friends fid pid
        else promoteEdge s.friends fid pid ++ [⟨pid, fid, "accepted"⟩] },
     .ok ())

/-- POST /friends/request for an authenticated player row `p`. -/
def friendsRequest (s : DB) (p : Player) (friendUsername : String) :
    DB × Except ApiError Unit :=
  if friendUsername = "" then (s, .error .missingField)
  else
    match findByGameUser s.players p.game_id friendUsername with
    | none => (s, .error .playerNotFound)
    | some fr =>
      if fr.id = p.id then (s, .error .cannotAddSelf)
      else if hasEdge s.friends p.id fr.id then (s, .ok ())
      else ({ s with friends := s.friends ++ [⟨p.id, fr.id, "pending"⟩] }, .ok ())

/-- GET /friends: join of the acceptor's accepted outgoing edges with the
players table — only the forward edge (pid → friend) is consulted. -/
def listFriends (s : DB) (pid : String) : List Player :=
  (s.friends.filter fun fr => fr.player_id == pid && fr.status == "accepted").filterMap
    fun fr => findPlayerById s.players fr.friend_id

/-- One call of the player-facing credit API (claims C1/C3). -/
inductive PlayerOp where
  | spend (amount : Int)
  | add (amount : Int)
  | buy (cid : String)
  deriving Repr

/-- Post-state of one player-facing credit call (errors leave the state). -/
def stepOp (s : DB) (pid : String) : PlayerOp → DB
  | .spend a => (creditsSpend s pid a).1
  | .add a => (creditsAdd s pid a).1
  | .buy c => (cosmeticsBuy s pid c).1

/-- Post-state of a sequence of player-facing credit calls. -/
def runOps (s : DB) (pid : String) : List PlayerOp → DB
  | [] => s
  | op :: ops => runOps (stepOp s pid op) pid ops

/-- One call of the inventory API (claim C7). -/
inductive InvOp where
  | add (item : String) (qty : Int) (md : Option String)
  | remove (item : String) (qty : Int)
  deriving Repr

/-- Post-state of one inventory call. -/
def stepInv (s : DB) (pid : String) : InvOp → DB
  | .add item qty md => (inventoryAdd s pid item qty md).1
  | .remove item qty => (inventoryRemove s pid item qty).1

/-- Post-state of a sequence of inventory calls. -/
def runInvOps (s : DB) (pid : String) : List InvOp → DB
  | [] => s
  | op :: ops => runInvOps (stepInv s pid op) pid ops

/-- An add op carries a positive quantity (removes are unconstrained). -/
def InvOp.addPositive : InvOp → Prop
  | .add _ q _ => 0 < q
  | .remove _ _ => True

instance : DecidablePred InvOp.addPositive := fun op =>
  match op with
  | .add _ q _ => inferInstanceAs (Decidable (0 < q))
  | .remove _ _ => inferInstanceAs (Decidable True)

/-- Every add in the op list carries a positive quantity. -/
def addQtysPositive (ops : List InvOp) : Prop :=
  ∀ op ∈ ops, op.addPositive

instance : DecidablePred addQtysPositive := fun ops =>
  List.decidableBAll _ ops

/-- Every stored credit balance is non-negative. -/
def balOk (s : DB) : Prop := ∀ p ∈ s.players, 0 ≤ p.credits

instance : DecidablePred balOk := fun s => List.decidableBAll _ s.players

/-- Player ids are pairwise distinct (the PRIMARY KEY of `players`). -/
def playersNodup (s : DB) : Prop := (s.players.map Player.id).Nodup

instance : DecidablePred playersNodup := fun s =>
  List.nodupDecidable (s.players.map Player.id)

/-- Every stored inventory quantity is strictly positive. -/
def invPositive (s : DB) : Prop := ∀ r ∈ s.inventory, 0 < r.quantity

instance : DecidablePred invPositive := fun s => List.decidableBAll _ s.inventory

/-- Inventory keys are pairwise distinct (the PRIMARY KEY of `inventory`). -/
def invKeysNodup (s : DB) : Prop :=
  (s.inventory.map fun r => (r.player_id, r.item_name)).Nodup

instance : DecidablePred invKeysNodup := fun s =>
  List.nodupDecidable
    (s.inventory.map fun r : InventoryRow => (r.player_id, r.item_name))

/-- Did the authentication middleware reject the request with a 401? -/
def authFails401 : Except ApiError Player → Bool
  | .error e => e.status == 401
  | .ok _ => false

/-- Concrete state: one player with 5 credits, a 3-credit cosmetic on sale. -/
def dbA : DB :=
  { players := [⟨"p1", "g1", "alice", "hpw", some "t1", 5, false⟩],
    inventory := [],
    catalog := [⟨"c1", "g1", "hat", 3⟩],
    player_cosmetics := [],
    friends := [] }

/-- Concrete state: one player already holding a sword stack with metadata. -/
def dbInv : DB :=
  { players := [⟨"p1", "g1", "alice", "hpw", some "t1", 5, false⟩],
    inventory := [⟨"p1", "sword", 3, some "m0"⟩],
    catalog := [],
    player_cosmetics := [],
    friends := [] }

/-- Concrete state: two players of the same game, no friend edges; alice's
stored credential equals her password under `verifyEq`. -/
def dbTwo : DB :=
  { players := [⟨"p1", "g1", "alice", "pw", some "t1", 5, false⟩,
                ⟨"p2", "g1", "bob", "pw", some "t2", 0, false⟩],
    inventory := [],
    catalog := [],
    player_cosmetics := [],
    friends := [] }

/-- Concrete state: two players and a single accepted directed edge p1 → p2,
with no reverse edge of any status. -/
def dbEdge : DB :=
  { players := [⟨"p1", "g1", "alice", "hpw", some "t1", 5, false⟩,
                ⟨"p2", "g1", "bob", "hpw", some "t2", 0, false⟩],
    inventory := [],
    catalog := [],
    player_cosmetics := [],
    friends := [⟨"p1", "p2", "accepted"⟩] }

/-- Plain string comparison, standing in for the external credential check in
the concrete scenarios. -/
def verifyEq (a b : String) : Bool := a == b

/-! Helper lemmas about the row-lookup and row-update functions. -/

theorem findPlayerById_mem {l : List Player} {pid : String} {p : Player}
    (h : findPlayerById l pid = some p) : p ∈ l ∧ p.id = pid := by
  induction l with
  | nil => simp [findPlayerById] at h
  | cons q qs ih =>
    by_cases hq : q.id = pid
    · rw [findPlayerById, if_pos hq] at h
      cases h
      exact ⟨List.mem_cons_self _ _, hq⟩
    · rw [findPlayerById, if_neg hq] at h
      obtain ⟨hm, hid⟩ := ih h
      exact ⟨List.mem_cons_of_mem _ hm, hid⟩

theorem findPlayerById_of_mem_nodup {l : List Player} {pid : String} {q : Player}
    (hnd : (l.map Player.id).Nodup) (hq : q ∈ l) (hid : q.id = pid) :
    findPlayerById l pid = some q := by
  induction l with
  | nil => cases hq
  | cons r rs ih =>
    rw [List.map_cons, List.nodup_cons] at hnd
    rcases List.mem_cons.mp hq with h | h
    · subst h
      rw [findPlayerById, if_pos hid]
    · by_cases hr : r.id = pid
      · exfalso
        apply hnd.1
        have : q.id ∈ rs.map Player.id := List.mem_map_of_mem Player.id h
        rw [hid] at this
        rw [hr]
        exact this
      · rw [findPlayerById, if_neg hr]
        exact ih hnd.2 h

theorem findPlayerById_exists_of_mem {l : List Player} {pid : String} {q : Player}
    (hq : q ∈ l) (hid : q.id = pid) : ∃ p, findPlayerById l pid = some p := by
  induction l with
  | nil => cases hq
  | cons r rs ih =>
    by_cases hr : r.id = pid
    · exact ⟨r, by rw [findPlayerById, if_pos hr]⟩
    · rcases List.mem_cons.mp hq with h | h
      · exact absurd (h ▸ hid) hr
      · obtain ⟨p, hp⟩ := ih h
        exact ⟨p, by rw [findPlayerById, if_neg hr]; exact hp⟩

theorem findPlayerById_updateById (l : List Player) (pid : String)
    (f : Player → Player) (hid : ∀ q, (f q).id = q.id) :
    findPlayerById (updateById l pid f) pid = (findPlayerById l pid).map f := by
  induction l with
  | nil => rfl
  | cons r rs ih =>
    by_cases hr : r.id = pid
    · rw [updateById, if_pos hr, findPlayerById, if_pos (by rw [hid]; exact hr),
        findPlayerById, if_pos hr]
      rfl
    · rw [updateById, if_neg hr, findPlayerById, if_neg hr,
        findPlayerById, if_neg hr]
      exact ih

theorem mem_updateById {l : List Player} {pid : String} {f : Player → Player}
    {q' : Player} (h : q' ∈ updateById l pid f) :
    (q' ∈ l ∧ q'.id ≠ pid) ∨ ∃ q ∈ l, q.id = pid ∧ q' = f q := by
  induction l with
  | nil => cases h
  | cons r rs ih =>
    rw [updateById] at h
    rcases List.mem_cons.mp h with h | h
    · by_cases hr : r.id = pid
      · rw [if_pos hr] at h
        exact Or.inr ⟨r, List.mem_cons_self _ _, hr, h⟩
      · rw [if_neg hr] at h
        subst h
        exact Or.inl ⟨List.mem_cons_self _ _, hr⟩
    · rcases ih h with ⟨hm, hne⟩ | ⟨q, hm, hq, he⟩
      · exact Or.inl ⟨List.mem_cons_of_mem _ hm, hne⟩
      · exact Or.inr ⟨q, List.mem_cons_of_mem _ hm, hq, he⟩

theorem updateById_map_id (l : List Player) (pid : String) (f : Player → Player)
    (hid : ∀ q, (f q).id = q.id) :
    (updateById l pid f).map Player.id = l.map Player.id := by
  induction l with
  | nil => rfl
  | cons r rs ih =>
    rw [updateById, List.map_cons, List.map_cons, ih]
    by_cases hr : r.id = pid
    · rw [if_pos hr, hid]
    · rw [if_neg hr]

theorem balOk_updateById {l : List Player} {pid : String} {f : Player → Player}
    (hnd : (l.map Player.id).Nodup)
    (hf : ∀ p, findPlayerById l pid = some p → 0 ≤ (f p).credits)
    (hbal : ∀ q ∈ l, 0 ≤ q.credits) :
    ∀ q ∈ updateById l pid f, 0 ≤ q.credits := by
  intro q' hq'
  rcases mem_updateById hq' with ⟨hm, _⟩ | ⟨q, hm, hqid, he⟩
  · exact hbal _ hm
  · subst he
    exact hf q (findPlayerById_of_mem_nodup hnd hm hqid)

theorem getPlayerByToken_eq_none {l : List Player} {t : String}
    (h : ∀ q ∈ l, q.token ≠ some t) : getPlayerByToken l t = none := by
  induction l with
  | nil => rfl
  | cons r rs ih =>
    rw [getPlayerByToken, if_neg (h r (List.mem_cons_self _ _))]
    exact ih fun q hq => h q (List.mem_cons_of_mem _ hq)

theorem findByGameUser_mem {l : List Player} {gid uname : String} {p : Player}
    (h : findByGameUser l gid uname = some p) :
    p ∈ l ∧ p.game_id = gid ∧ p.username = uname := by
  induction l with
  | nil => simp [findByGameUser] at h
  | cons q qs ih =>
    by_cases hq : q.game_id = gid ∧ q.username = uname
    · rw [findByGameUser, if_pos hq] at h
      cases h
      exact ⟨List.mem_cons_self _ _, hq⟩
    · rw [findByGameUser, if_neg hq] at h
      obtain ⟨hm, hrest⟩ := ih h
      exact ⟨List.mem_cons_of_mem _ hm, hrest⟩

theorem lookupInv_mem {l : List InventoryRow} {pid item : String}
    {r : InventoryRow} (h : lookupInv l pid item = some r) :
    r ∈ l ∧ r.player_id = pid ∧ r.item_name = item := by
  induction l with
  | nil => simp [lookupInv] at h
  | cons x xs ih =>
    by_cases hx : x.player_id = pid ∧ x.item_name = item
    · rw [lookupInv, if_pos hx] at h
      cases h
      exact ⟨List.mem_cons_self _ _, hx⟩
    · rw [lookupInv, if_neg hx] at h
      obtain ⟨hm, hrest⟩ := ih h
      exact ⟨List.mem_cons_of_mem _ hm, hrest⟩

theorem lookupInv_eq_none_iff {l : List InventoryRow} {pid item : String} :
    lookupInv l pid item = none ↔
      ∀ r ∈ l, ¬(r.player_id = pid ∧ r.item_name = item) := by
  induction l with
  | nil => simp [lookupInv]
  | cons x xs ih =>
    by_cases hx : x.player_id = pid ∧ x.item_name = item
    · rw [lookupInv, if_pos hx]
      simp only [List.mem_cons]
      constructor
      · intro h
        cases h
      · intro h
        exact absurd hx (h x (Or.inl rfl))
    · rw [lookupInv, if_neg hx]
      rw [ih]
      constructor
      · intro h r hr
        rcases List.mem_cons.mp hr with h1 | h1
        · subst h1
          exact hx
        · exact h r h1
      · intro h r hr
        exact h r (List.mem_cons_of_mem _ hr)

theorem lookupInv_of_mem_nodup {l : List InventoryRow} {pid item : String}
    {r : InventoryRow}
    (hnd : (l.map fun x => (x.player_id, x.item_name)).Nodup)
    (hr : r ∈ l) (hp : r.player_id = pid) (hi : r.item_name = item) :
    lookupInv l pid item = some r := by
  induction l with
  | nil => cases hr
  | cons x xs ih =>
    rw [List.map_cons, List.nodup_cons] at hnd
    rcases List.mem_cons.mp hr with h | h
    · subst h
      rw [lookupInv, if_pos ⟨hp, hi⟩]
    · by_cases hx : x.player_id = pid ∧ x.item_name = item
      · exfalso
        apply hnd.1
        have : (r.player_id, r.item_name) ∈
            xs.map fun y => (y.player_id, y.item_name) :=
          List.mem_map_of_mem _ h
        rw [hp, hi] at this
        rw [hx.1, hx.2]
        exact this
      · rw [lookupInv, if_neg hx]
        exact ih hnd.2 h

theorem lookupInv_updateInv (l : List InventoryRow) (pid item : String)
    (f : InventoryRow → InventoryRow)
    (hkey : ∀ r, (f r).player_id = r.player_id ∧ (f r).item_name = r.item_name) :
    lookupInv (updateInv l pid item f) pid item =
      (lookupInv l pid item).map f := by
  induction l with
  | nil => rfl
  | cons x xs ih =>
    by_cases hx : x.player_id = pid ∧ x.item_name = item
    · rw [updateInv, if_pos hx, lookupInv,
        if_pos ⟨by rw [(hkey x).1]; exact hx.1, by rw [(hkey x).2]; exact hx.2⟩,
        lookupInv, if_pos hx]
      rfl
    · rw [updateInv, if_neg hx, lookupInv, if_neg hx, lookupInv, if_neg hx]
      exact ih

theorem mem_updateInv {l : List InventoryRow} {pid item : String}
    {f : InventoryRow → InventoryRow} {r' : InventoryRow}
    (h : r' ∈ updateInv l pid item f) :
    (r' ∈ l ∧ ¬(r'.player_id = pid ∧ r'.item_name = item)) ∨
      ∃ r ∈ l, (r.player_id = pid ∧ r.item_name = item) ∧ r' = f r := by
  induction l with
  | nil => cases h
  | cons x xs ih =>
    rw [updateInv] at h
    rcases List.mem_cons.mp h with h | h
    · by_cases hx : x.player_id = pid ∧ x.item_name = item
      · rw [if_pos hx] at h
        exact Or.inr ⟨x, List.mem_cons_self _ _, hx, h⟩
      · rw [if_neg hx] at h
        subst h
        exact Or.inl ⟨List.mem_cons_self _ _, hx⟩
    · rcases ih h with ⟨hm, hne⟩ | ⟨r, hm, hkey, he⟩
      · exact Or.inl ⟨List.mem_cons_of_mem _ hm, hne⟩
      · exact Or.inr ⟨r, List.mem_cons_of_mem _ hm, hkey, he⟩

theorem updateInv_map_key (l : List InventoryRow) (pid item : String)
    (f : InventoryRow → InventoryRow)
    (hkey : ∀ r, (f r).player_id = r.player_id ∧ (f r).item_name = r.item_name) :
    ((updateInv l pid item f).map fun r => (r.player_id, r.item_name)) =
      l.map fun r => (r.player_id, r.item_name) := by
  induction l with
  | nil => rfl
  | cons x xs ih =>
    rw [updateInv, List.map_cons, List.map_cons, ih]
    by_cases hx : x.player_id = pid ∧ x.item_name = item
    · rw [if_pos hx, (hkey x).1, (hkey x).2]
    · rw [if_neg hx]

theorem invPos_updateInv {l : List InventoryRow} {pid item : String}
    {f : InventoryRow → InventoryRow}
    (hnd : (l.map fun x => (x.player_id, x.item_name)).Nodup)
    (hf : ∀ r, lookupInv l pid item = some r → 0 < (f r).quantity)
    (hpos : ∀ r ∈ l, 0 < r.quantity) :
    ∀ r ∈ updateInv l pid item f, 0 < r.quantity := by
  intro r' hr'
  rcases mem_updateInv hr' with ⟨hm, _⟩ | ⟨r, hm, hkey, he⟩
  · exact hpos _ hm
  · subst he
    exact hf r (lookupInv_of_mem_nodup hnd hm hkey.1 hkey.2)

theorem mem_deleteInv {l : List InventoryRow} {pid item : String}
    {r : InventoryRow} (h : r ∈ deleteInv l pid item) : r ∈ l :=
  List.mem_of_mem_filter h

theorem deleteInv_map_key_sublist (l : List InventoryRow) (pid item : String) :
    ((deleteInv l pid item).map fun r => (r.player_id, r.item_name)).Sublist
      (l.map fun r => (r.player_id, r.item_name)) :=
  (List.filter_sublist l).map _

theorem rowsFor_deleteInv (l : List InventoryRow) (pid item : String) :
    rowsFor (deleteInv l pid item) pid item = [] := by
  induction l with
  | nil => rfl
  | cons x xs ih =>
    rw [deleteInv, List.filter_cons]
    by_cases hx : (x.player_id == pid && x.item_name == item) = true
    · simp only [hx, Bool.not_true, Bool.false_eq_true, if_false]
      exact ih
    · have hfalse : (x.player_id == pid && x.item_name == item) = false :=
        Bool.eq_false_iff.mpr hx
      simp only [hfalse, Bool.not_false, if_true]
      rw [rowsFor, List.filter_cons]
      simp only [hfalse, Bool.false_eq_true, if_false]
      exact ih

theorem lookupInv_append_of_none {l : List InventoryRow} {pid item : String}
    {r : InventoryRow} (h : lookupInv l pid item = none)
    (hkey : r.player_id = pid ∧ r.item_name = item) :
    lookupInv (l ++ [r]) pid item = some r := by
  induction l with
  | nil =>
    rw [List.nil_append, lookupInv, if_pos hkey]
  | cons x xs ih =>
    by_cases hx : x.player_id = pid ∧ x.item_name = item
    · rw [lookupInv, if_pos hx] at h
      cases h
    · rw [lookupInv, if_neg hx] at h
      rw [List.cons_append, lookupInv, if_neg hx]
      exact ih h

theorem ownsCosmetic_append_self (l : List OwnershipRow) (pid cid : String)
    (e : Bool) : ownsCosmetic (l ++ [⟨pid, cid, e⟩]) pid cid = true := by
  induction l with
  | nil => rw [List.nil_append, ownsCosmetic, if_pos ⟨rfl, rfl⟩]
  | cons x xs ih =>
    by_cases hx : x.player_id = pid ∧ x.cosmetic_id = cid
    · rw [List.cons_append, ownsCosmetic, if_pos hx]
    · rw [List.cons_append, ownsCosmetic, if_neg hx]
      exact ih

theorem hasEdge_eq_false_iff {l : List FriendRow} {a b : String} :
    hasEdge l a b = false ↔
      ∀ fr ∈ l, ¬(fr.player_id = a ∧ fr.friend_id = b) := by
  induction l with
  | nil => simp [hasEdge]
  | cons x xs ih =>
    by_cases hx : x.player_id = a ∧ x.friend_id = b
    · rw [hasEdge, if_pos hx]
      simp only [List.mem_cons]
      constructor
      · intro h
        cases h
      · intro h
        exact absurd hx (h x (Or.inl rfl))
    · rw [hasEdge, if_neg hx, ih]
      constructor
      · intro h fr hfr
        rcases List.mem_cons.mp hfr with h1 | h1
        · subst h1
          exact hx
        · exact h fr h1
      · intro h fr hfr
        exact h fr (List.mem_cons_of_mem _ hfr)

theorem promoteEdge_of_no_edge {l : List FriendRow} {a b : String}
    (h : hasEdge l a b = false) : promoteEdge l a b = l := by
  induction l with
  | nil => rfl
  | cons x xs ih =>
    by_cases hx : x.player_id = a ∧ x.friend_id = b
    · rw [hasEdge, if_pos hx] at h
      cases h
    · rw [hasEdge, if_neg hx] at h
      rw [promoteEdge, if_neg hx, ih h]

theorem hasEdge_promoteEdge (l : List FriendRow) (a b c d : String) :
    hasEdge (promoteEdge l a b) c d = hasEdge l c d := by
  induction l with
  | nil => rfl
  | cons x xs ih =>
    by_cases hx : x.player_id = a ∧ x.friend_id = b
    · rw [promoteEdge, if_pos hx]
      by_cases hcd : x.player_id = c ∧ x.friend_id = d
      · rw [hasEdge, if_pos hcd, hasEdge, if_pos hcd]
      · rw [hasEdge, if_neg hcd, hasEdge, if_neg hcd]
        exact ih
    · rw [promoteEdge, if_neg hx]
      by_cases hcd : x.player_id = c ∧ x.friend_id = d
      · rw [hasEdge, if_pos hcd, hasEdge, if_pos hcd]
      · rw [hasEdge, if_neg hcd, hasEdge, if_neg hcd]
        exact ih

theorem mem_listFriends_intro {s : DB} {pid : String} {fr : FriendRow}
    {q : Player} (hfr : fr ∈ s.friends) (hp : fr.player_id = pid)
    (hst : fr.status = "accepted")
    (hfind : findPlayerById s.players fr.friend_id = some q) :
    q ∈ listFriends s pid := by
  rw [listFriends]
  apply List.mem_filterMap.mpr
  refine ⟨fr, ?_, hfind⟩
  apply List.mem_filter.mpr
  refine ⟨hfr, ?_⟩
  rw [hp, hst]
  simp

theorem listFriends_mem_elim {s : DB} {pid : String} {q : Player}
    (h : q ∈ listFriends s pid) :
    ∃ fr ∈ s.friends, fr.player_id = pid ∧ fr.status = "accepted" ∧
      findPlayerById s.players fr.friend_id = some q := by
  rw [listFriends] at h
  obtain ⟨fr, hfr, hfind⟩ := List.mem_filterMap.mp h
  obtain ⟨hmem, hcond⟩ := List.mem_filter.mp hfr
  rw [Bool.and_eq_true, beq_iff_eq, beq_iff_eq] at hcond
  exact ⟨fr, hmem, hcond.1, hcond.2, hfind⟩

/-! Preservation lemmas for the individual route handlers. -/

theorem creditsSpend_preserves (s : DB) (pid : String) (amount : Int)
    (hnd : playersNodup s) (hbal : balOk s) :
    playersNodup (creditsSpend s pid amount).1 ∧
      balOk (creditsSpend s pid amount).1 := by
  cases hf : findPlayerById s.players pid with
  | none =>
    simp only [creditsSpend, hf]
    exact ⟨hnd, hbal⟩
  | some p =>
    simp only [creditsSpend, hf]
    by_cases hb : p.banned = true
    · rw [if_pos hb]
      exact ⟨hnd, hbal⟩
    · rw [if_neg hb]
      by_cases ha : amount ≤ 0
      · rw [if_pos ha]
        exact ⟨hnd, hbal⟩
      · rw [if_neg ha]
        by_cases hc : p.credits < amount
        · rw [if_pos hc]
          exact ⟨hnd, hbal⟩
        · rw [if_neg hc]
          constructor
          · simp only [playersNodup]
            rw [updateById_map_id s.players pid
              (fun q => { q with credits := q.credits - amount }) (fun q => rfl)]
            exact hnd
          · intro q hq
            refine balOk_updateById hnd ?_ hbal q hq
            intro p' hp'
            rw [hf] at hp'
            injection hp' with hpe
            subst hpe
            show 0 ≤ p.credits - amount
            omega

theorem creditsAdd_preserves (s : DB) (pid : String) (amount : Int)
    (hnd : playersNodup s) (hbal : balOk s) :
    playersNodup (creditsAdd s pid amount).1 ∧
      balOk (creditsAdd s pid amount).1 := by
  cases hf : findPlayerById s.players pid with
  | none =>
    simp only [creditsAdd, hf]
    exact ⟨hnd, hbal⟩
  | some p =>
    simp only [creditsAdd, hf]
    by_cases hb : p.banned = true
    · rw [if_pos hb]
      exact ⟨hnd, hbal⟩
    · rw [if_neg hb]
      by_cases ha : amount ≤ 0
      · rw [if_pos ha]
        exact ⟨hnd, hbal⟩
      · rw [if_neg ha]
        constructor
        · simp only [playersNodup]
          rw [updateById_map_id s.players pid
            (fun q => { q with credits := q.credits + amount }) (fun q => rfl)]
          exact hnd
        · intro q hq
          refine balOk_updateById hnd ?_ hbal q hq
          intro p' hp'
          rw [hf] at hp'
          injection hp' with hpe
          subst hpe
          show 0 ≤ p.credits + amount
          have := hbal p (findPlayerById_mem hf).1
          omega

theorem cosmeticsBuy_preserves (s : DB) (pid cid : String)
    (hnd : playersNodup s) (hbal : balOk s) :
    playersNodup (cosmeticsBuy s pid cid).1 ∧
      balOk (cosmeticsBuy s pid cid).1 := by
  cases hf : findPlayerById s.players pid with
  | none =>
    simp only [cosmeticsBuy, hf]
    exact ⟨hnd, hbal⟩
  | some p =>
    simp only [cosmeticsBuy, hf]
    by_cases hb : p.banned = true
    · rw [if_pos hb]
      exact ⟨hnd, hbal⟩
    · rw [if_neg hb]
      by_cases hcid : cid = ""
      · rw [if_pos hcid]
        exact ⟨hnd, hbal⟩
      · rw [if_neg hcid]
        cases hc : findCosmetic s.catalog cid with
        | none =>
          simp only [hc]
          exact ⟨hnd, hbal⟩
        | some c =>
          simp only [hc]
          by_cases how : ownsCosmetic s.player_cosmetics pid cid = true
          · rw [if_pos how]
            exact ⟨hnd, hbal⟩
          · rw [if_neg how]
            by_cases hcr : p.credits < c.price
            · rw [if_pos hcr]
              exact ⟨hnd, hbal⟩
            · rw [if_neg hcr]
              constructor
              · simp only [playersNodup]
                rw [updateById_map_id s.players pid
                  (fun q => { q with credits := q.credits - c.price }) (fun q => rfl)]
                exact hnd
              · intro q hq
                refine balOk_updateById hnd ?_ hbal q hq
                intro p' hp'
                rw [hf] at hp'
                injection hp' with hpe
                subst hpe
                show 0 ≤ p.credits - c.price
                omega

theorem creditsSpend_error_frame (s : DB) (pid : String) (amount : Int)
    (e : ApiError) :
    (creditsSpend s pid amount).2 = .error e →
      (creditsSpend s pid amount).1 = s := by
  cases hf : findPlayerById s.players pid with
  | none =>
    simp only [creditsSpend, hf]
    intro _
    trivial
  | some p =>
    simp only [creditsSpend, hf]
    by_cases hb : p.banned = true
    · rw [if_pos hb]
      intro _
      rfl
    · rw [if_neg hb]
      by_cases ha : amount ≤ 0
      · rw [if_pos ha]
        intro _
        rfl
      · rw [if_neg ha]
        by_cases hc : p.credits < amount
        · rw [if_pos hc]
          intro _
          rfl
        · rw [if_neg hc]
          intro h
          simp at h

theorem creditsAdd_error_frame (s : DB) (pid : String) (amount : Int)
    (e : ApiError) :
    (creditsAdd s pid amount).2 = .error e → (creditsAdd s pid amount).1 = s := by
  cases hf : findPlayerById s.players pid with
  | none =>
    simp only [creditsAdd, hf]
    intro _
    trivial
  | some p =>
    simp only [creditsAdd, hf]
    by_cases hb : p.banned = true
    · rw [if_pos hb]
      intro _
      rfl
    · rw [if_neg hb]
      by_cases ha : amount ≤ 0
      · rw [if_pos ha]
        intro _
        rfl
      · rw [if_neg ha]
        intro h
        simp at h

theorem cosmeticsBuy_error_frame (s : DB) (pid cid : String) (e : ApiError) :
    (cosmeticsBuy s pid cid).2 = .error e → (cosmeticsBuy s pid cid).1 = s := by
  cases hf : findPlayerById s.players pid with
  | none =>
    simp only [cosmeticsBuy, hf]
    intro _
    trivial
  | some p =>
    simp only [cosmeticsBuy, hf]
    by_cases hb : p.banned = true
    · rw [if_pos hb]
      intro _
      rfl
    · rw [if_neg hb]
      by_cases hcid : cid = ""
      · rw [if_pos hcid]
        intro _
        rfl
      · rw [if_neg hcid]
        cases hc : findCosmetic s.catalog cid with
        | none =>
          simp only [hc]
          intro _
          trivial
        | some c =>
          simp only [hc]
          by_cases how : ownsCosmetic s.player_cosmetics pid cid = true
          · rw [if_pos how]
            intro _
            rfl
          · rw [if_neg how]
            by_cases hcr : p.credits < c.price
            · rw [if_pos hcr]
              intro _
              rfl
            · rw [if_neg hcr]
              intro h
              simp at h

theorem cosmeticsBuy_notFound (s : DB) (pid cid : String) (p : Player)
    (hfind : findPlayerById s.players pid = some p) (hban : p.banned = false)
    (hcid : cid ≠ "") (hc : findCosmetic s.catalog cid = none) :
    cosmeticsBuy s pid cid = (s, .error .cosmeticNotFound) := by
  have hb : ¬ p.banned = true := by
    rw [hban]
    simp
  simp only [cosmeticsBuy, hfind, if_neg hb, if_neg hcid, hc]

theorem cosmeticsBuy_conflict (s : DB) (pid cid : String) (p : Player)
    (c : Cosmetic) (hfind : findPlayerById s.players pid = some p)
    (hban : p.banned = false) (hcid : cid ≠ "")
    (hc : findCosmetic s.catalog cid = some c)
    (how : ownsCosmetic s.player_cosmetics pid cid = true) :
    cosmeticsBuy s pid cid = (s, .error .alreadyOwned) := by
  have hb : ¬ p.banned = true := by
    rw [hban]
    simp
  simp only [cosmeticsBuy, hfind, if_neg hb, if_neg hcid, hc, how, if_true]

theorem cosmeticsBuy_insufficient (s : DB) (pid cid : String) (p : Player)
    (c : Cosmetic) (hfind : findPlayerById s.players pid = some p)
    (hban : p.banned = false) (hcid : cid ≠ "")
    (hc : findCosmetic s.catalog cid = some c)
    (how : ownsCosmetic s.player_cosmetics pid cid = false)
    (hlt : p.credits < c.price) :
    cosmeticsBuy s pid cid = (s, .error .notEnoughCredits) := by
  have hb : ¬ p.banned = true := by
    rw [hban]
    simp
  have ho : ¬ ownsCosmetic s.player_cosmetics pid cid = true := by
    rw [how]
    simp
  simp only [cosmeticsBuy, hfind, if_neg hb, if_neg hcid, hc, if_neg ho,
    if_pos hlt]

theorem cosmeticsBuy_success (s : DB) (pid cid : String) (p : Player)
    (c : Cosmetic) (hfind : findPlayerById s.players pid = some p)
    (hban : p.banned = false) (hcid : cid ≠ "")
    (hc : findCosmetic s.catalog cid = some c)
    (how : ownsCosmetic s.player_cosmetics pid cid = false)
    (hle : c.price ≤ p.credits) :
    cosmeticsBuy s pid cid =
      ({ s with
          players := updateById s.players pid
            fun q => { q with credits := q.credits - c.price },
          player_cosmetics := s.player_cosmetics ++ [⟨pid, cid, false⟩] },
       .ok ()) := by
  have hb : ¬ p.banned = true := by
    rw [hban]
    simp
  have ho : ¬ ownsCosmetic s.player_cosmetics pid cid = true := by
    rw [how]
    simp
  have hlt : ¬ p.credits < c.price := not_lt.mpr hle
  simp only [cosmeticsBuy, hfind, if_neg hb, if_neg hcid, hc, if_neg ho,
    if_neg hlt]

theorem stepOp_preserves (s : DB) (pid : String) (op : PlayerOp)
    (hnd : playersNodup s) (hbal : balOk s) :
    playersNodup (stepOp s pid op) ∧ balOk (stepOp s pid op) := by
  cases op with
  | spend a => exact creditsSpend_preserves s pid a hnd hbal
  | add a => exact creditsAdd_preserves s pid a hnd hbal
  | buy c => exact cosmeticsBuy_preserves s pid c hnd hbal

theorem runOps_preserves (pid : String) (ops : List PlayerOp) :
    ∀ s : DB, playersNodup s → balOk s →
      playersNodup (runOps s pid ops) ∧ balOk (runOps s pid ops) := by
  induction ops with
  | nil =>
    intro s hnd hbal
    exact ⟨hnd, hbal⟩
  | cons op ops ih =>
    intro s hnd hbal
    obtain ⟨h1, h2⟩ := stepOp_preserves s pid op hnd hbal
    exact ih _ h1 h2

theorem inventoryAdd_preserves (s : DB) (pid item : String) (qty : Int)
    (md : Option String) (hq : 0 < qty) (hnd : invKeysNodup s)
    (hpos : invPositive s) :
    invKeysNodup (inventoryAdd s pid item qty md).1 ∧
      invPositive (inventoryAdd s pid item qty md).1 := by
  by_cases hi : item = ""
  · simp only [inventoryAdd, if_pos hi]
    exact ⟨hnd, hpos⟩
  · cases hl : lookupInv s.inventory pid item with
    | some r =>
      simp only [inventoryAdd, if_neg hi, hl]
      constructor
      · simp only [invKeysNodup]
        rw [updateInv_map_key s.inventory pid item
          (fun r => { r with quantity := r.quantity + qty }) (fun r => ⟨rfl, rfl⟩)]
        exact hnd
      · intro r' hr'
        refine invPos_updateInv hnd ?_ hpos r' hr'
        intro r0 hr0
        rw [hl] at hr0
        injection hr0 with hre
        subst hre
        show 0 < r.quantity + qty
        have := hpos r (lookupInv_mem hl).1
        omega
    | none =>
      simp only [inventoryAdd, if_neg hi, hl]
      constructor
      · simp only [invKeysNodup]
        rw [List.map_append, List.nodup_append]
        refine ⟨hnd, List.nodup_singleton _, ?_⟩
        intro a ha hb
        obtain ⟨r0, hr0, hkey⟩ := List.mem_map.mp ha
        rw [List.map_singleton, List.mem_singleton] at hb
        subst hb
        have hnone := lookupInv_eq_none_iff.mp hl r0 hr0
        apply hnone
        exact ⟨congrArg Prod.fst hkey, congrArg Prod.snd hkey⟩
      · intro r' hr'
        rcases List.mem_append.mp hr' with h | h
        · exact hpos _ h
        · rw [List.mem_singleton] at h
          subst h
          exact hq

theorem inventoryRemove_preserves (s : DB) (pid item : String) (qty : Int)
    (hnd : invKeysNodup s) (hpos : invPositive s) :
    invKeysNodup (inventoryRemove s pid item qty).1 ∧
      invPositive (inventoryRemove s pid item qty).1 := by
  by_cases hi : item = ""
  · simp only [inventoryRemove, if_pos hi]
    exact ⟨hnd, hpos⟩
  · cases hl : lookupInv s.inventory pid item with
    | none =>
      simp only [inventoryRemove, if_neg hi, hl]
      exact ⟨hnd, hpos⟩
    | some r =>
      simp only [inventoryRemove, if_neg hi, hl]
      by_cases hqr : r.quantity ≤ qty
      · rw [if_pos hqr]
        constructor
        · exact (deleteInv_map_key_sublist s.inventory pid item).nodup hnd
        · intro r' hr'
          exact hpos r' (mem_deleteInv hr')
      · rw [if_neg hqr]
        constructor
        · simp only [invKeysNodup]
          rw [updateInv_map_key s.inventory pid item
            (fun x => { x with quantity := x.quantity - qty }) (fun x => ⟨rfl, rfl⟩)]
          exact hnd
        · intro r' hr'
          refine invPos_updateInv hnd ?_ hpos r' hr'
          intro r0 hr0
          rw [hl] at hr0
          injection hr0 with hre
          subst hre
          show 0 < r.quantity - qty
          omega

theorem stepInv_preserves (s : DB) (pid : String) (op : InvOp)
    (hop : op.addPositive) (hnd : invKeysNodup s) (hpos : invPositive s) :
    invKeysNodup (stepInv s pid op) ∧ invPositive (stepInv s pid op) := by
  cases op with
  | add item qty md => exact inventoryAdd_preserves s pid item qty md hop hnd hpos
  | remove item qty => exact inventoryRemove_preserves s pid item qty hnd hpos

theorem runInvOps_preserves (pid : String) (ops : List InvOp) :
    ∀ s : DB, addQtysPositive ops → invKeysNodup s → invPositive s →
      invKeysNodup (runInvOps s pid ops) ∧ invPositive (runInvOps s pid ops) := by
  induction ops with
  | nil =>
    intro s _ hnd hpos
    exact ⟨hnd, hpos⟩
  | cons op ops ih =>
    intro s hops hnd hpos
    obtain ⟨h1, h2⟩ :=
      stepInv_preserves s pid op (hops op (List.mem_cons_self _ _)) hnd hpos
    exact ih _ (fun o ho => hops o (List.mem_cons_of_mem _ ho)) h1 h2

/-! Claim theorems. -/

/-- C1 counterexample: the claim quantifies over admin/owner operations as
well, but POST /owner/credits/set performs no sign check on `amount`: on a
state holding a single player with balance 0, setting amount to -5 is
accepted (no rejection) and stores a negative balance. -/
theorem c1_counterexample :
    (ownerCreditsSet dbA "p1" (-5)).2 = .ok () ∧
      findPlayerById (ownerCreditsSet dbA "p1" (-5)).1.players "p1" =
        some ⟨"p1", "g1", "alice", "hpw", some "t1", -5, false⟩ ∧
      ¬ balOk (ownerCreditsSet dbA "p1" (-5)).1 :=
  ⟨rfl, rfl, by decide⟩

/-- C1 (amended): for the player-facing credit mutations — spend, add and
cosmetic purchase — a stored non-negative balance stays non-negative, and
every rejected call leaves the database exactly unchanged; the owner
operations (credits/set, credits/give, bulk/credits) do not validate the
amount and are excluded. -/
theorem c1_player_credit_ops_nonneg (s : DB) (pid : String) (amount : Int)
    (cid : String) (hnd : playersNodup s) (hbal : balOk s) :
    (balOk (creditsSpend s pid amount).1 ∧
      (∀ e, (creditsSpend s pid amount).2 = .error e →
        (creditsSpend s pid amount).1 = s)) ∧
    (balOk (creditsAdd s pid amount).1 ∧
      (∀ e, (creditsAdd s pid amount).2 = .error e →
        (creditsAdd s pid amount).1 = s)) ∧
    (balOk (cosmeticsBuy s pid cid).1 ∧
      (∀ e, (cosmeticsBuy s pid cid).2 = .error e →
        (cosmeticsBuy s pid cid).1 = s)) :=
  ⟨⟨(creditsSpend_preserves s pid amount hnd hbal).2,
    fun e => creditsSpend_error_frame s pid amount e⟩,
   ⟨(creditsAdd_preserves s pid amount hnd hbal).2,
    fun e => creditsAdd_error_frame s pid amount e⟩,
   ⟨(cosmeticsBuy_preserves s pid cid hnd hbal).2,
    fun e => cosmeticsBuy_error_frame s pid cid e⟩⟩

/-- Witness for C1: on the sample state, an over-large spend keeps every
balance non-negative and leaves the state untouched. -/
theorem c1_witness :
    balOk (creditsSpend dbA "p1" 999).1 ∧ (creditsSpend dbA "p1" 999).1 = dbA := by
  have h := c1_player_credit_ops_nonneg dbA "p1" 999 "c1" (by decide) (by decide)
  exact ⟨h.1.1, h.1.2 ApiError.notEnoughCredits rfl⟩

/-- C3: starting from a state with distinct player ids and non-negative
balances, every sequence of Spend/Add/BuyCosmetic calls with arbitrary
arguments keeps every player's stored balance non-negative. -/
theorem c3_balance_invariant_sequences (s : DB) (pid : String)
    (ops : List PlayerOp) (hnd : playersNodup s) (hbal : balOk s) :
    balOk (runOps s pid ops) :=
  (runOps_preserves pid ops s hnd hbal).2

/-- Witness for C3: a concrete mixed sequence of valid and rejected calls on
the sample state ends with all balances non-negative. -/
theorem c3_witness :
    balOk (runOps dbA "p1"
      [PlayerOp.add 5, PlayerOp.spend 3, PlayerOp.buy "c1",
       PlayerOp.spend 100, PlayerOp.buy "c1", PlayerOp.add (-7),
       PlayerOp.spend 4]) :=
  c3_balance_invariant_sequences dbA "p1" _ (by decide) (by decide)

/-- C7 counterexample: the claim quantifies over arbitrary arguments, but
POST /inventory/add never validates `quantity`: adding quantity -5 on an
empty inventory succeeds and persists a row with a negative quantity. -/
theorem c7_counterexample :
    (inventoryAdd dbA "p1" "sword" (-5) none).2 = .ok () ∧
      (inventoryAdd dbA "p1" "sword" (-5) none).1.inventory =
        [⟨"p1", "sword", -5, none⟩] ∧
      ¬ invPositive (inventoryAdd dbA "p1" "sword" (-5) none).1 :=
  ⟨rfl, rfl, by decide⟩

/-- C7 (amended): provided every AddItem call supplies a positive quantity
(the handler does not validate it), any sequence of AddItem/RemoveItem calls
— RemoveItem quantities unrestricted — keeps every persisted inventory row
strictly positive, starting from a state with distinct (player, item) keys
and positive rows. -/
theorem c7_inventory_rows_positive (s : DB) (pid : String) (ops : List InvOp)
    (hops : addQtysPositive ops) (hnd : invKeysNodup s) (hpos : invPositive s) :
    invPositive (runInvOps s pid ops) :=
  (runInvOps_preserves pid ops s hops hnd hpos).2

/-- Witness for C7: a concrete sequence of adds and removes (including an
over-remove and a remove of a missing item) keeps all rows positive. -/
theorem c7_witness :
    invPositive (runInvOps dbA "p1"
      [InvOp.add "sword" 3 none, InvOp.remove "sword" 1,
       InvOp.add "sword" 2 (some "m"), InvOp.add "shield" 1 none,
       InvOp.remove "sword" 99, InvOp.remove "axe" 1]) :=
  c7_inventory_rows_positive dbA "p1" _ (by decide) (by decide) (by decide)

/-- C2: for a resolved, non-banned player p, BuyCosmetic returns 404 when the
cosmetic id is not in the catalog, 409 when already owned, and 400 when the
price exceeds p's balance — each failure leaving the database unchanged (the
checks are applied in that order); when the purchase succeeds, a second
identical call returns 409 without further mutation, so the price is debited
exactly once. -/
theorem c2_buy_cosmetic_cases (s : DB) (pid cid : String) (p : Player)
    (hfind : findPlayerById s.players pid = some p) (hban : p.banned = false)
    (hcid : cid ≠ "") :
    (findCosmetic s.catalog cid = none →
      cosmeticsBuy s pid cid = (s, .error .cosmeticNotFound)) ∧
    (∀ c, findCosmetic s.catalog cid = some c →
      ownsCosmetic s.player_cosmetics pid cid = true →
      cosmeticsBuy s pid cid = (s, .error .alreadyOwned)) ∧
    (∀ c, findCosmetic s.catalog cid = some c →
      ownsCosmetic s.player_cosmetics pid cid = false →
      p.credits < c.price →
      cosmeticsBuy s pid cid = (s, .error .notEnoughCredits)) ∧
    (∀ c, findCosmetic s.catalog cid = some c →
      ownsCosmetic s.player_cosmetics pid cid = false →
      c.price ≤ p.credits →
      (cosmeticsBuy s pid cid).2 = .ok () ∧
      findPlayerById (cosmeticsBuy s pid cid).1.players pid =
        some { p with credits := p.credits - c.price } ∧
      cosmeticsBuy (cosmeticsBuy s pid cid).1 pid cid =
        ((cosmeticsBuy s pid cid).1, .error .alreadyOwned)) := by
  refine ⟨?_, ?_, ?_, ?_⟩
  · intro hc
    exact cosmeticsBuy_notFound s pid cid p hfind hban hcid hc
  · intro c hc how
    exact cosmeticsBuy_conflict s pid cid p c hfind hban hcid hc how
  · intro c hc how hlt
    exact cosmeticsBuy_insufficient s pid cid p c hfind hban hcid hc how hlt
  · intro c hc how hle
    have hsucc := cosmeticsBuy_success s pid cid p c hfind hban hcid hc how hle
    have hfind2 : findPlayerById (cosmeticsBuy s pid cid).1.players pid =
        some { p with credits := p.credits - c.price } := by
      rw [hsucc]
      show findPlayerById (updateById s.players pid
        fun q => { q with credits := q.credits - c.price }) pid = _
      rw [findPlayerById_updateById s.players pid
        (fun q => { q with credits := q.credits - c.price }) (fun q => rfl), hfind]
      rfl
    refine ⟨by rw [hsucc], hfind2, ?_⟩
    refine cosmeticsBuy_conflict (cosmeticsBuy s pid cid).1 pid cid
      { p with credits := p.credits - c.price } c hfind2 hban hcid ?_ ?_
    · rw [hsucc]
      exact hc
    · rw [hsucc]
      exact ownsCosmetic_append_self s.player_cosmetics pid cid false

/-- Witness for C2: on the sample state the 3-credit hat is affordable with 5
credits; the first purchase succeeds, debits exactly 3, and the second
attempt is rejected as already owned without touching the state. -/
theorem c2_witness :
    (cosmeticsBuy dbA "p1" "c1").2 = .ok () ∧
      findPlayerById (cosmeticsBuy dbA "p1" "c1").1.players "p1" =
        some ⟨"p1", "g1", "alice", "hpw", some "t1", 2, false⟩ ∧
      cosmeticsBuy (cosmeticsBuy dbA "p1" "c1").1 "p1" "c1" =
        ((cosmeticsBuy dbA "p1" "c1").1, .error .alreadyOwned) := by
  have h := c2_buy_cosmetic_cases dbA "p1" "c1"
    ⟨"p1", "g1", "alice", "hpw", some "t1", 5, false⟩ rfl rfl (by decide)
  exact h.2.2.2 ⟨"c1", "g1", "hat", 3⟩ rfl rfl (by decide)

/-- C8: when an inventory row already exists for (player, item), a later
AddItem call increments its quantity and leaves the stored metadata (and
key) unchanged, whatever metadata argument the later call supplies. -/
theorem c8_metadata_preserved (s : DB) (pid item : String) (qty : Int)
    (md : Option String) (r : InventoryRow) (hitem : item ≠ "")
    (hfound : lookupInv s.inventory pid item = some r) :
    (inventoryAdd s pid item qty md).2 = .ok () ∧
      lookupInv (inventoryAdd s pid item qty md).1.inventory pid item =
        some { r with quantity := r.quantity + qty } := by
  constructor
  · simp only [inventoryAdd, if_neg hitem, hfound]
  · simp only [inventoryAdd, if_neg hitem, hfound]
    rw [lookupInv_updateInv s.inventory pid item
      (fun x => { x with quantity := x.quantity + qty }) (fun x => ⟨rfl, rfl⟩),
      hfound]
    rfl

/-- Witness for C8: adding 2 swords with different metadata onto an existing
3-sword stack carrying metadata m0 yields quantity 5 and still metadata m0. -/
theorem c8_witness :
    (inventoryAdd dbInv "p1" "sword" 2 (some "OTHER")).2 = .ok () ∧
      lookupInv (inventoryAdd dbInv "p1" "sword" 2 (some "OTHER")).1.inventory
        "p1" "sword" = some ⟨"p1", "sword", 5, some "m0"⟩ :=
  c8_metadata_preserved dbInv "p1" "sword" 2 (some "OTHER")
    ⟨"p1", "sword", 3, some "m0"⟩ (by decide) rfl

/-- C9: for a player with no stored sword row, AddItem(p, sword, 3) followed
by RemoveItem(p, sword, 3) leaves no inventory row for (p, sword): the
remove's quantity test (stored 3 ≤ removed 3) deletes the row. -/
theorem c9_add_remove_roundtrip (s : DB) (pid : String)
    (hnone : lookupInv s.inventory pid "sword" = none) :
    rowsFor (inventoryRemove (inventoryAdd s pid "sword" 3 none).1
        pid "sword" 3).1.inventory pid "sword" = [] := by
  have hsword : ¬("sword" : String) = "" := by decide
  have hs1 : (inventoryAdd s pid "sword" 3 none).1 =
      { s with inventory := s.inventory ++ [⟨pid, "sword", 3, none⟩] } := by
    simp only [inventoryAdd, if_neg hsword, hnone]
  rw [hs1]
  have hlook : lookupInv (s.inventory ++ [⟨pid, "sword", 3, none⟩]) pid "sword" =
      some ⟨pid, "sword", 3, none⟩ :=
    lookupInv_append_of_none hnone ⟨rfl, rfl⟩
  simp only [inventoryRemove, if_neg hsword, hlook]
  rw [if_pos (by norm_num : (3 : Int) ≤ 3)]
  exact rowsFor_deleteInv _ pid "sword"

/-- Witness for C9: the round trip on the sample state (empty inventory)
leaves no sword row. -/
theorem c9_witness :
    rowsFor (inventoryRemove (inventoryAdd dbA "p1" "sword" 3 none).1
        "p1" "sword" 3).1.inventory "p1" "sword" = [] :=
  c9_add_remove_roundtrip dbA "p1" rfl

/-- C4 counterexample: on a state holding players p1, p2 and only the single
accepted directed edge p1 → p2 (no reverse edge of any status), p2 appears
in ListFriends(p1) — refuting the claimed equivalence with the existence of
both directed accepted edges. -/
theorem c4_counterexample :
    (listFriends dbEdge "p1").map Player.id = ["p2"] ∧
      edgesFromTo dbEdge.friends "p2" "p1" = [] :=
  ⟨rfl, rfl⟩

/-- C4 (amended): f appears in ListFriends(p) exactly when the single
directed edge p → f exists with status accepted and f is a stored player;
the reverse edge f → p is never consulted by the query. -/
theorem c4_list_friends_forward_edge_iff (s : DB) (pid fid : String) :
    (∃ q ∈ listFriends s pid, q.id = fid) ↔
      ((∃ fr ∈ s.friends, fr.player_id = pid ∧ fr.friend_id = fid ∧
          fr.status = "accepted") ∧ ∃ q ∈ s.players, q.id = fid) := by
  constructor
  · rintro ⟨q, hq, hqid⟩
    obtain ⟨fr, hmem, hpid, hst, hfind⟩ := listFriends_mem_elim hq
    have hm := findPlayerById_mem hfind
    refine ⟨⟨fr, hmem, hpid, ?_, hst⟩, q, hm.1, hqid⟩
    rw [← hm.2]
    exact hqid
  · rintro ⟨⟨fr, hmem, hpid, hfid, hst⟩, q, hq, hqid⟩
    obtain ⟨q', hq'⟩ := findPlayerById_exists_of_mem hq hqid
    refine ⟨q', mem_listFriends_intro hmem hpid hst ?_,
      (findPlayerById_mem hq').2⟩
    rw [hfid]
    exact hq'

/-- C5: registration under an existing (game identifier, username) pair is
rejected with 409 leaving the state unchanged, while registration of the
same username under a different, non-colliding game identifier (with fresh
id and token) succeeds and appends a player whose balance is 0. -/
theorem c5_register_per_tenant_unique (s : DB)
    (gid gid2 uname pw hashv newId newTok : String)
    (hg : gid ≠ "") (hg2 : gid2 ≠ "") (hu : uname ≠ "") (hp : pw ≠ "")
    (hne : gid2 ≠ gid)
    (hcoll : ∃ q ∈ s.players, q.game_id = gid ∧ q.username = uname)
    (hfresh : ∀ q ∈ s.players,
      ¬(q.game_id = gid2 ∧ q.username = uname) ∧ q.id ≠ newId) :
    register s gid uname pw hashv newId newTok = (s, .error .usernameTaken) ∧
      register s gid2 uname pw hashv newId newTok =
        ({ s with players :=
            s.players ++ [⟨newId, gid2, uname, hashv, some newTok, 0, false⟩] },
         .ok ()) := by
  constructor
  · have hmiss : ¬(gid = "" ∨ uname = "" ∨ pw = "") := by
      push_neg
      exact ⟨hg, hu, hp⟩
    have hany : (s.players.any
        (fun q => q.id == newId ||
          (q.game_id == gid && q.username == uname))) = true := by
      rw [List.any_eq_true]
      obtain ⟨q, hq, h1, h2⟩ := hcoll
      refine ⟨q, hq, ?_⟩
      simp only [Bool.or_eq_true, Bool.and_eq_true, beq_iff_eq]
      exact Or.inr ⟨h1, h2⟩
    rw [register, if_neg hmiss, if_pos hany]
  · have hmiss : ¬(gid2 = "" ∨ uname = "" ∨ pw = "") := by
      push_neg
      exact ⟨hg2, hu, hp⟩
    have hany : (s.players.any
        (fun q => q.id == newId ||
          (q.game_id == gid2 && q.username == uname))) = false := by
      rw [List.any_eq_false]
      intro q hq
      simp only [Bool.or_eq_true, Bool.and_eq_true, beq_iff_eq]
      push_neg
      obtain ⟨hnc, hni⟩ := hfresh q hq
      refine ⟨hni, fun h1 h2 => hnc ⟨h1, h2⟩⟩
    have hany2 : ¬ (s.players.any
        (fun q => q.id == newId ||
          (q.game_id == gid2 && q.username == uname))) = true := by
      rw [hany]
      simp
    rw [register, if_neg hmiss, if_neg hany2]

/-- Witness for C5: on the sample state holding (g1, alice), re-registering
alice in g1 is rejected unchanged, and registering alice in g2 appends a
fresh player with 0 credits. -/
theorem c5_witness :
    register dbA "g1" "alice" "pw2" "h2" "p9" "t9" =
        (dbA, .error .usernameTaken) ∧
      register dbA "g2" "alice" "pw2" "h2" "p9" "t9" =
        ({ dbA with players :=
            dbA.players ++ [⟨"p9", "g2", "alice", "h2", some "t9", 0, false⟩] },
         .ok ()) :=
  c5_register_per_tenant_unique dbA "g1" "g2" "alice" "pw2" "h2" "p9" "t9"
    (by decide) (by decide) (by decide) (by decide) (by decide) (by decide)
    (by decide)

/-- C6: a successful login overwrites the player's stored token with the
fresh one; afterwards nobody holds the old token, so authenticating with it
is rejected with a 401 — at most one live session per player. -/
theorem c6_login_rotates_token (s : DB) (gid uname pw t newTok : String)
    (p : Player) (verify : String → String → Bool)
    (hg : gid ≠ "") (hu : uname ≠ "") (hpw : pw ≠ "")
    (hnd : playersNodup s)
    (hfind : findByGameUser s.players gid uname = some p)
    (hver : verify pw p.password_hash = true)
    (hban : p.banned = false)
    (htok : p.token = some t)
    (huniq : ∀ q ∈ s.players, q.token = some t → q = p)
    (hfresh : newTok ≠ t) :
    (login s gid uname pw verify newTok).2 = .ok () ∧
      findPlayerById (login s gid uname pw verify newTok).1.players p.id =
        some { p with token := some newTok } ∧
      getPlayerByToken (login s gid uname pw verify newTok).1.players t =
        none ∧
      authFails401 (requireAuthCheck (login s gid uname pw verify newTok).1 t) =
        true := by
  have hmiss : ¬(gid = "" ∨ uname = "" ∨ pw = "") := by
    push_neg
    exact ⟨hg, hu, hpw⟩
  have hv : ¬ (verify pw p.password_hash = false) := by
    rw [hver]
    simp
  have hb : ¬ p.banned = true := by
    rw [hban]
    simp
  have hres : login s gid uname pw verify newTok =
      ({ s with players :=
          updateById s.players p.id fun q => { q with token := some newTok } },
       .ok ()) := by
    rw [login, if_neg hmiss]
    simp only [hfind, if_neg hv, if_neg hb]
  have hnone : getPlayerByToken (updateById s.players p.id
      (fun q => { q with token := some newTok })) t = none := by
    apply getPlayerByToken_eq_none
    intro q' hq'
    rcases mem_updateById hq' with ⟨hm, hne⟩ | ⟨q, hm, hqid, he⟩
    · intro hqt
      exact hne (congrArg Player.id (huniq q' hm hqt))
    · subst he
      intro hqt
      injection hqt with hte
      exact hfresh hte
  rw [hres]
  refine ⟨rfl, ?_, hnone, ?_⟩
  · show findPlayerById (updateById s.players p.id
      (fun q => { q with token := some newTok })) p.id = _
    rw [findPlayerById_updateById s.players p.id
      (fun q => { q with token := some newTok }) (fun q => rfl)]
    rw [findPlayerById_of_mem_nodup hnd (findByGameUser_mem hfind).1 rfl]
    rfl
  · rw [requireAuthCheck]
    by_cases ht : t = ""
    · rw [if_pos ht]
      rfl
    · rw [if_neg ht]
      show authFails401 (match getPlayerByToken (updateById s.players p.id
        (fun q => { q with token := some newTok })) t with
        | none => Except.error ApiError.invalidToken
        | some q => if q.banned then Except.error ApiError.bannedAccount
          else Except.ok q) = true
      rw [hnone]
      rfl

/-- Witness for C6: alice logs in again in the two-player state; her stored
token becomes t3, the old token t1 resolves to nobody, and authenticating
with t1 is rejected with a 401. -/
theorem c6_witness :
    (login dbTwo "g1" "alice" "pw" verifyEq "t3").2 = .ok () ∧
      findPlayerById (login dbTwo "g1" "alice" "pw" verifyEq "t3").1.players
          "p1" = some ⟨"p1", "g1", "alice", "pw", some "t3", 5, false⟩ ∧
      getPlayerByToken (login dbTwo "g1" "alice" "pw" verifyEq "t3").1.players
          "t1" = none ∧
      authFails401 (requireAuthCheck
        (login dbTwo "g1" "alice" "pw" verifyEq "t3").1 "t1") = true :=
  c6_login_rotates_token dbTwo "g1" "alice" "pw" "t1" "t3"
    ⟨"p1", "g1", "alice", "pw", some "t1", 5, false⟩ verifyEq
    (by decide) (by decide) (by decide) (by decide) rfl rfl rfl rfl
    (by decide) (by decide)

/-- C10: for an authenticated player p and any other stored player f with no
edges between them in either direction, AcceptFriend(p, f) succeeds even
though f never sent a request: it inserts the forward edge p → f directly as
accepted, f then appears in p's own ListFriends output, and still no reverse
edge f → p exists. -/
theorem c10_unilateral_accept (s : DB) (pid fid : String) (q : Player)
    (hfid : fid ≠ "") (hpne : pid ≠ fid) (hnd : playersNodup s)
    (hq : q ∈ s.players) (hqid : q.id = fid)
    (hfwd : hasEdge s.friends pid fid = false)
    (hrev : hasEdge s.friends fid pid = false) :
    (friendsAccept s pid fid).2 = .ok () ∧
      q ∈ listFriends (friendsAccept s pid fid).1 pid ∧
      edgesFromTo (friendsAccept s pid fid).1.friends fid pid = [] := by
  have hpromote : promoteEdge s.friends fid pid = s.friends :=
    promoteEdge_of_no_edge hrev
  have hcond : ¬ hasEdge (promoteEdge s.friends fid pid) pid fid = true := by
    rw [hpromote, hfwd]
    simp
  have hres : friendsAccept s pid fid =
      ({ s with friends := s.friends ++ [⟨pid, fid, "accepted"⟩] }, .ok ()) := by
    rw [friendsAccept, if_neg hfid, if_neg hcond, hpromote]
  rw [hres]
  refine ⟨rfl, ?_, ?_⟩
  · have hfr : (⟨pid, fid, "accepted"⟩ : FriendRow) ∈
        s.friends ++ [⟨pid, fid, "accepted"⟩] :=
      List.mem_append_right _ (List.mem_singleton.mpr rfl)
    refine mem_listFriends_intro hfr rfl rfl ?_
    show findPlayerById s.players fid = some q
    exact findPlayerById_of_mem_nodup hnd hq hqid
  · show edgesFromTo (s.friends ++ [⟨pid, fid, "accepted"⟩]) fid pid = []
    rw [edgesFromTo, List.filter_append]
    have h1 : s.friends.filter
        (fun fr => fr.player_id == fid && fr.friend_id == pid) = [] := by
      rw [List.filter_eq_nil_iff]
      intro fr hfr
      have hno := hasEdge_eq_false_iff.mp hrev fr hfr
      rw [Bool.and_eq_true, beq_iff_eq, beq_iff_eq]
      exact fun hc => hno hc
    have h2 : List.filter
        (fun fr => fr.player_id == fid && fr.friend_id == pid)
        [⟨pid, fid, "accepted"⟩] = ([] : List FriendRow) := by
      rw [List.filter_cons]
      have : (((⟨pid, fid, "accepted"⟩ : FriendRow).player_id == fid) &&
          ((⟨pid, fid, "accepted"⟩ : FriendRow).friend_id == pid)) = false := by
        show ((pid == fid) && (fid == pid)) = false
        rw [Bool.and_eq_false_iff]
        left
        exact beq_eq_false_iff_ne.mpr hpne
      rw [this]
      simp
    rw [h1, h2]
    rfl

/-- Witness for C10: in the two-player state with no friend rows, p1 accepts
p2 out of nowhere; bob lands in p1's friends list with no reverse edge. -/
theorem c10_witness :
    (friendsAccept dbTwo "p1" "p2").2 = .ok () ∧
      (⟨"p2", "g1", "bob", "pw", some "t2", 0, false⟩ : Player) ∈
        listFriends (friendsAccept dbTwo "p1" "p2").1 "p1" ∧
      edgesFromTo (friendsAccept dbTwo "p1" "p2").1.friends "p2" "p1" = [] :=
  c10_unilateral_accept dbTwo "p1" "p2"
    ⟨"p2", "g1", "bob", "pw", some "t2", 0, false⟩
    (by decide) (by decide) (by decide) (by decide) rfl rfl rfl

end GameBackend
